import Mathlib

/-!
Verification development for the `ray-tracer` repository (Rust).

Embedding conventions:
* `f64` scalars are idealized as `ℚ` (exact field arithmetic; the claims under
  study are structural / control-flow properties, not facts about binary64
  rounding).
* The only transcendental operation the code uses is `f64::sqrt`.  It is
  abstracted as an explicit function parameter `s : ℚ → ℚ` threaded through
  every definition that calls it.  Concrete evaluations instantiate `s` with
  `Rat.sqrt`, and every concrete input is chosen so that the argument of the
  square root is a perfect square of a rational, where `Rat.sqrt` coincides
  with the exact (and with the binary64) square root.
* Rust functions mutating an `&mut HitRecord` and returning `bool` are embedded
  as functions returning `Option HitRecord` (`none` = `false`, record
  untouched; `some rec` = `true` with the record that was written).
* The repository contains two iterations of some components: the monolithic
  `lib.rs` (integrator `calculate_color`, `Image`, a `Lambertian`-only material
  model) and the split modules `objects.rs` / `material.rs` / `color.rs` /
  `hit_record.rs` / `thread_pool.rs`.  Both are embedded where claims cite
  them; the `Sphere::hit` bodies of `lib.rs` and `objects.rs` are textually
  identical and share one embedding.
* Randomness (`Vec3::random_unit_vector`, drawn from a thread-local RNG) is
  abstracted as an oracle: scatter functions take the drawn vector as an
  argument, and the integrator takes a stream `rng : ℕ → Vec3` indexed by the
  remaining recursion depth (each recursion level draws at most once).
-/

namespace RayTracer

/-- Embeds `Vec3` from `src/vec3.rs`: a triple of `f64` components. -/
structure Vec3 where
  x : ℚ
  y : ℚ
  z : ℚ
deriving DecidableEq, Repr

namespace Vec3

/-- Embeds `Vec3::new`. -/
def new (x y z : ℚ) : Vec3 := ⟨x, y, z⟩

/-- Embeds `Vec3::zero`. -/
def zero : Vec3 := ⟨0, 0, 0⟩

/-- Embeds `Vec3::length_squared`. -/
def length_squared (v : Vec3) : ℚ := v.x * v.x + v.y * v.y + v.z * v.z

/-- Embeds `Vec3::length` = `length_squared().sqrt()`; `s` stands for `f64::sqrt`. -/
def length (s : ℚ → ℚ) (v : Vec3) : ℚ := s v.length_squared

/-- Embeds `Vec3::dot`. -/
def dot (v1 v2 : Vec3) : ℚ := v1.x * v2.x + v1.y * v2.y + v1.z * v2.z

/-- Embeds `Vec3::near_zero`: every component has absolute value below `1e-7`
(the Rust `bool` result is embedded as a decidable proposition). -/
def near_zero (v : Vec3) : Prop :=
  |v.x| < 1 / 10000000 ∧ |v.y| < 1 / 10000000 ∧ |v.z| < 1 / 10000000

instance (v : Vec3) : Decidable v.near_zero := by
  unfold near_zero
  infer_instance

end Vec3

/-- Embeds `impl Add for &Vec3` (componentwise). -/
instance : Add Vec3 := ⟨fun a b => ⟨a.x + b.x, a.y + b.y, a.z + b.z⟩⟩

/-- Embeds `impl Sub for Vec3` (componentwise). -/
instance : Sub Vec3 := ⟨fun a b => ⟨a.x - b.x, a.y - b.y, a.z - b.z⟩⟩

/-- Embeds `impl Neg for Vec3`. -/
instance : Neg Vec3 := ⟨fun a => ⟨-a.x, -a.y, -a.z⟩⟩

/-- Embeds `impl Mul<&Vec3> for f64` (scalar times vector). -/
instance : HMul ℚ Vec3 Vec3 := ⟨fun c v => ⟨c * v.x, c * v.y, c * v.z⟩⟩

/-- Embeds `impl Div<f64> for Vec3` (componentwise division by a scalar). -/
instance : HDiv Vec3 ℚ Vec3 := ⟨fun v c => ⟨v.x / c, v.y / c, v.z / c⟩⟩

/-- Embeds the free function `unit_vector` from `src/vec3.rs`: `vec / vec.length()`. -/
def unit_vector (s : ℚ → ℚ) (vec : Vec3) : Vec3 := vec / Vec3.length s vec

/-- Embeds `Color` from `src/color.rs` (also the `color_frac.rs` iteration):
three `f64` channels. -/
structure Color where
  r : ℚ
  g : ℚ
  b : ℚ
deriving DecidableEq, Repr

/-- Embeds the free function `clamp` from `src/color.rs`. -/
def clamp (x min max : ℚ) : ℚ :=
  if x < min then min
  else if x > max then max
  else x

namespace Color

/-- Embeds `Color::from_frac`: `None` when any channel is above `1` or below `0`. -/
def from_frac (r g b : ℚ) : Option Color :=
  if r > 1 ∨ r < 0 ∨ g > 1 ∨ g < 0 ∨ b > 1 ∨ b < 0 then none
  else some ⟨r, g, b⟩

/-- Embeds `Color::black`. -/
def black : Color := ⟨0, 0, 0⟩

/-- Embeds `Color::white` = `from_frac(1.0, 1.0, 1.0).unwrap()`. -/
def white : Color := ⟨1, 1, 1⟩

/-- Embeds `Color::blue` = `from_frac(0.5, 0.7, 1.0).unwrap()`. -/
def blue : Color := ⟨1 / 2, 7 / 10, 1⟩

/-- Embeds `Color::add_sample` (channelwise accumulation, no overflow check). -/
def add_sample (c : Color) (sample : Color) : Color :=
  ⟨c.r + sample.r, c.g + sample.g, c.b + sample.b⟩

/-- Embeds `Color::combine_samples`: scale each channel by `1/samples`, take the
square root (`s` stands for `f64::sqrt`), then map through `256 * clamp(·, 0, 0.999)`.
The two successive groups of assignments of the Rust method appear as the two
`let` layers. -/
def combine_samples (s : ℚ → ℚ) (c : Color) (samples : ℕ) : Color :=
  let scale : ℚ := 1 / (samples : ℚ)
  let r := s (c.r * scale)
  let g := s (c.g * scale)
  let b := s (c.b * scale)
  let r := 256 * clamp r 0 (999 / 1000)
  let g := 256 * clamp g 0 (999 / 1000)
  let b := 256 * clamp b 0 (999 / 1000)
  ⟨r, g, b⟩

end Color

/-- Embeds `impl Mul<Color> for f64` (scalar times color, channelwise). -/
instance : HMul ℚ Color Color := ⟨fun c col => ⟨c * col.r, c * col.g, c * col.b⟩⟩

/-- Embeds `impl Mul<Color> for Color` (channelwise product). -/
instance : Mul Color := ⟨fun a b => ⟨a.r * b.r, a.g * b.g, a.b * b.b⟩⟩

/-- Embeds `impl Add for Color` (channelwise sum). -/
instance : Add Color := ⟨fun a b => ⟨a.r + b.r, a.g + b.g, a.b + b.b⟩⟩

/-- Embeds `Ray` from `src/ray.rs`: origin and (not necessarily unit) direction. -/
structure Ray where
  origin : Vec3
  direction : Vec3
deriving DecidableEq, Repr

namespace Ray

/-- Embeds `Ray::at`: `origin + t * direction` (named `at'` because `at` is a
Lean keyword). -/
def at' (r : Ray) (t : ℚ) : Vec3 := r.origin + t * r.direction

/-- Embeds `Ray::unit_vector`: `direction / direction.length()`. -/
def unit_vector (s : ℚ → ℚ) (r : Ray) : Vec3 := r.direction / Vec3.length s r.direction

end Ray

/-- Embeds `HitRecord` from `src/hit_record.rs` (identical to the copy inside
`src/lib.rs`): intersection point, surface normal, ray parameter, and the
front-face flag. -/
structure HitRecord where
  point : Vec3
  normal : Vec3
  t : ℚ
  front_face : Bool
deriving DecidableEq, Repr

namespace HitRecord

/-- Embeds `HitRecord::new` (the default placeholder values). -/
def new : HitRecord := ⟨Vec3.zero, Vec3.zero, 0, true⟩

/-- Embeds `HitRecord::set_face_normal` exactly as written in
`src/hit_record.rs`: `front_face = dot(direction, outward_normal) > 0`, and the
stored normal is `outward_normal` when `front_face` holds, `-outward_normal`
otherwise.  (This function is defined in the source but never called by
`Sphere::hit`.) -/
def set_face_normal (rec : HitRecord) (ray : Ray) (outward_normal : Vec3) : HitRecord :=
  let ff := Vec3.dot ray.direction outward_normal > 0
  { rec with
      front_face := ff
      normal := if ff then outward_normal else -outward_normal }

end HitRecord

/-- Embeds the material model of the `src/lib.rs` iteration, where the
`Material` trait has `scatter(&self, rec) -> Ray` and `absorption() -> Color`
and the sole implementor (besides `Sphere`'s delegation) is `Lambertian`. -/
inductive Material where
  | lambertian (absorption : Color)
deriving DecidableEq, Repr

namespace Material

/-- Embeds `Lambertian::scatter` from `src/lib.rs`: direction is
`rec.normal + random_unit_vector()` (the random draw is the oracle argument
`u`), falling back to `rec.normal` when the sum is near zero; the returned ray
starts at `rec.point`. -/
def scatter (m : Material) (u : Vec3) (rec : HitRecord) : Ray :=
  match m with
  | .lambertian _ =>
    let direction := rec.normal + u
    let direction := if direction.near_zero then rec.normal else direction
    Ray.mk rec.point direction

/-- Embeds `Lambertian::absorption` from `src/lib.rs`. -/
def absorption : Material → Color
  | .lambertian a => a

end Material

/-- Embeds `Sphere` (identical struct in `src/lib.rs` and `src/objects.rs`):
center, radius and the attached material. -/
structure Sphere where
  center : Vec3
  radius : ℚ
  material : Material
deriving DecidableEq, Repr

namespace Sphere

/-- Embeds `Sphere::hit` (the bodies in `src/lib.rs` and `src/objects.rs` are
textually identical).  `s` stands for `f64::sqrt`.  The Rust function takes
`rec : &mut HitRecord` and returns `bool`; here `none` is `false` (record
untouched) and `some rec` is `true` with the updated record (`front_face` is
not written by the source, so it is carried over from the input record). -/
def hit (s : ℚ → ℚ) (sph : Sphere) (ray : Ray) (t_min t_max : ℚ)
    (rec : HitRecord) : Option HitRecord :=
  let oc := ray.origin - sph.center
  let a := Vec3.dot ray.direction ray.direction
  let b := 2 * Vec3.dot ray.direction oc
  let c := Vec3.dot oc oc - sph.radius * sph.radius
  let discriminant := b * b - 4 * a * c
  if discriminant < 0 then none
  else
    let accept := fun (root : ℚ) =>
      let t := root
      let point := ray.at' t
      let normal := (point - sph.center) / sph.radius
      some { rec with t := t, point := point, normal := normal }
    let root := (-b - s discriminant) / (2 * a)
    if root < t_min ∨ t_max < root then
      let root := (-b + s discriminant) / (2 * a)
      if root < t_min ∨ t_max < root then none
      else accept root
    else accept root

/-- Abbreviation for the quadratic coefficient `a = dot(direction, direction)`
computed inside `Sphere::hit`. -/
def hitA (_sph : Sphere) (ray : Ray) : ℚ :=
  Vec3.dot ray.direction ray.direction

/-- Abbreviation for the coefficient `b = 2 * dot(direction, oc)` computed
inside `Sphere::hit`, with `oc = origin - center`. -/
def hitB (sph : Sphere) (ray : Ray) : ℚ :=
  2 * Vec3.dot ray.direction (ray.origin - sph.center)

/-- Abbreviation for the coefficient `c = dot(oc, oc) - radius^2` computed
inside `Sphere::hit`. -/
def hitC (sph : Sphere) (ray : Ray) : ℚ :=
  Vec3.dot (ray.origin - sph.center) (ray.origin - sph.center)
    - sph.radius * sph.radius

/-- Abbreviation for the discriminant `b^2 - 4ac` computed inside
`Sphere::hit`. -/
def hitDisc (sph : Sphere) (ray : Ray) : ℚ :=
  hitB sph ray * hitB sph ray - 4 * hitA sph ray * hitC sph ray

/-- The first root `(-b - sqrt(disc)) / 2a` evaluated by `Sphere::hit`
(`s` stands for `f64::sqrt`). -/
def hitRoot1 (s : ℚ → ℚ) (sph : Sphere) (ray : Ray) : ℚ :=
  (-(hitB sph ray) - s (hitDisc sph ray)) / (2 * hitA sph ray)

/-- The second root `(-b + sqrt(disc)) / 2a` evaluated by `Sphere::hit`. -/
def hitRoot2 (s : ℚ → ℚ) (sph : Sphere) (ray : Ray) : ℚ :=
  (-(hitB sph ray) + s (hitDisc sph ray)) / (2 * hitA sph ray)

/-- The record `Sphere::hit` writes on accepting root `t`. -/
def hitWrite (sph : Sphere) (ray : Ray) (rec : HitRecord) (t : ℚ) : HitRecord :=
  { rec with t := t, point := ray.at' t, normal := (ray.at' t - sph.center) / sph.radius }

end Sphere

/-- Embeds `const INFINITY: f64 = f64::MAX` from `src/lib.rs`; `f64::MAX` is
exactly `(2^53 - 1) * 2^971`. -/
def INFINITY : ℚ := (2 ^ 53 - 1) * 2 ^ 971

/-- Embeds `const SAMPLES_PER_PIXEL: u16 = 50` from `src/lib.rs`. -/
def SAMPLES_PER_PIXEL : ℕ := 50

/-- Embeds `const MAX_DEPTH: u16 = 10` from `src/lib.rs`. -/
def MAX_DEPTH : ℕ := 10

/-- Embeds the object-scan loop inside `calculate_color` (`src/lib.rs`):
`for s in shapes { if s.hit(&ray, 0.001, INFINITY, &mut rec) { return ... } }`.
The loop returns as soon as one object's hit test succeeds, always with
`t_max = INFINITY`; this helper yields the first such object together with the
record it wrote (the shared record starts as `HitRecord::new()`). -/
def first_hit (s : ℚ → ℚ) (ray : Ray) (shapes : List Sphere) :
    Option (Sphere × HitRecord) :=
  match shapes with
  | [] => none
  | sp :: rest =>
    match sp.hit s ray (1 / 1000) INFINITY HitRecord.new with
    | some rec => some (sp, rec)
    | none => first_hit s ray rest

/-- Embeds `generate_background_color` (`src/lib.rs`): vertical lerp between
white and blue against the normalized ray direction. -/
def generate_background_color (s : ℚ → ℚ) (r : Ray) : Color :=
  let unit_direction := r.unit_vector s
  let t := 1 / 2 * (unit_direction.y + 1)
  (1 - t) * Color.white + t * Color.blue

/-- Embeds `calculate_color` (`src/lib.rs`): black at depth 0; otherwise scan
the shapes in list order, and on the first accepted hit scatter and recurse
(`absorption * calculate_color(new_ray, shapes, depth - 1)`); background when
no shape hits.  `rng` is the random-unit-vector oracle, indexed by the
remaining depth (each level draws at most once). -/
def calculate_color (s : ℚ → ℚ) (rng : ℕ → Vec3) (ray : Ray)
    (shapes : List Sphere) (depth : ℕ) : Color :=
  match depth with
  | 0 => Color.black
  | d + 1 =>
    match first_hit s ray shapes with
    | some (sp, rec) =>
      let new_ray := sp.material.scatter (rng (d + 1)) rec
      sp.material.absorption * calculate_color s rng new_ray shapes d
    | none => generate_background_color s ray

/-- Embeds `Image` (`src/lib.rs`): requested aspect ratio plus pixel
dimensions (`u32` modeled as `ℕ`). -/
structure Image where
  aspect_ratio : ℚ
  width : ℕ
  height : ℕ
deriving DecidableEq, Repr

/-- Embeds Rust's saturating cast `as u32` on an `f64` value: truncation toward
zero, with negative values mapped to `0` and values at or above `2^32` mapped
to `u32::MAX`. -/
def f64_as_u32 (q : ℚ) : ℕ :=
  if q ≤ 0 then 0
  else if (2 ^ 32 : ℚ) ≤ q then 2 ^ 32 - 1
  else (⌊q⌋).toNat

/-- Embeds `Image::new` (`src/lib.rs`): `height = (width as f64 / aspect_ratio)
as u32` (a `u32` width converts to `f64` exactly, so only the outer cast needs
modeling). -/
def Image.new (width : ℕ) (aspect_ratio : ℚ) : Image :=
  { aspect_ratio := aspect_ratio
    width := width
    height := f64_as_u32 ((width : ℚ) / aspect_ratio) }

/-- Embeds `Lambertian` from `src/material.rs` (the split-module iteration,
whose `Material` trait returns `Option<Ray>`). -/
structure Lambertian where
  albedo : Color
deriving DecidableEq, Repr

namespace Lambertian

/-- Embeds `Lambertian::new`. -/
def new (albedo : Color) : Lambertian := ⟨albedo⟩

/-- Embeds `Lambertian::scatter` from `src/material.rs`: always `Some`; the
direction is `rec.normal + random_unit_vector()` (oracle `u`), with the
near-zero fallback to `rec.normal`. -/
def scatter (_l : Lambertian) (u : Vec3) (rec : HitRecord) (_ray_in : Ray) :
    Option Ray :=
  let direction := rec.normal + u
  let direction := if direction.near_zero then rec.normal else direction
  some (Ray.mk rec.point direction)

/-- Embeds `Lambertian::attenuation`. -/
def attenuation (l : Lambertian) : Color := l.albedo

end Lambertian

/-- Embeds `Metal` from `src/material.rs`. -/
structure Metal where
  albedo : Color
  fuzz : ℚ
deriving DecidableEq, Repr

/-- Embeds the free function `reflect` from `src/material.rs`:
`v - 2 * dot(v, normal) * normal`. -/
def reflect (v normal : Vec3) : Vec3 :=
  let b := Vec3.dot v normal
  v - (2 * b) * normal

namespace Metal

/-- Embeds `Metal::fuzzy`: stores `fuzz` unchanged when `fuzz < 1`, else `1`. -/
def fuzzy (albedo : Color) (fuzz : ℚ) : Metal :=
  let fuzz := if fuzz < 1 then fuzz else 1
  ⟨albedo, fuzz⟩

/-- Embeds `Metal::shiny`: fuzz `0`. -/
def shiny (albedo : Color) : Metal := ⟨albedo, 0⟩

/-- Embeds `Metal::scatter` from `src/material.rs`: reflect the normalized
incoming direction about the normal, perturb by `fuzz * random_unit_vector()`
(oracle `u`), and return `Some` exactly when the scattered direction's dot
product with the normal is positive. -/
def scatter (m : Metal) (s : ℚ → ℚ) (u : Vec3) (rec : HitRecord)
    (ray_in : Ray) : Option Ray :=
  let reflected := reflect (ray_in.unit_vector s) rec.normal
  let scattered := Ray.mk rec.point (reflected + m.fuzz * u)
  if Vec3.dot scattered.direction rec.normal > 0 then some scattered
  else none

/-- Embeds `Metal::attenuation`. -/
def attenuation (m : Metal) : Color := m.albedo

end Metal

/-- Embeds `Worker` from `src/thread_pool.rs`.  The spawned OS thread and its
join handle are effects outside the embedding; the worker's identity is its
`id` (`u8` modeled as `ℕ`). -/
structure Worker where
  id : ℕ
deriving DecidableEq, Repr

/-- Embeds `PoolCreationError` from `src/thread_pool.rs` (a unit struct). -/
structure PoolCreationError where
deriving DecidableEq, Repr

/-- Embeds `ThreadPool` from `src/thread_pool.rs`: the vector of workers (the
job channel's sender is an effectful handle outside the embedding). -/
structure ThreadPool where
  workers : List Worker
deriving DecidableEq, Repr

/-- Embeds `ThreadPool::new` (`src/thread_pool.rs`): for `size > 0` build one
worker per id in `0..size` and return `Ok`; for `size = 0` return
`Err(PoolCreationError)`.  Rust's `Result<T, E>` is embedded as `Except E T`. -/
def ThreadPool.new (size : ℕ) : Except PoolCreationError ThreadPool :=
  if size > 0 then
    Except.ok ⟨(List.range size).map Worker.mk⟩
  else
    Except.error ⟨⟩

/-- Unfolding lemma for vector addition. -/
theorem Vec3.add_def (a b : Vec3) : a + b = ⟨a.x + b.x, a.y + b.y, a.z + b.z⟩ := rfl

/-- Unfolding lemma for vector subtraction. -/
theorem Vec3.sub_def (a b : Vec3) : a - b = ⟨a.x - b.x, a.y - b.y, a.z - b.z⟩ := rfl

/-- Unfolding lemma for vector negation. -/
theorem Vec3.neg_def (a : Vec3) : -a = ⟨-a.x, -a.y, -a.z⟩ := rfl

/-- Unfolding lemma for scalar-vector multiplication. -/
theorem Vec3.smul_def (c : ℚ) (v : Vec3) : c * v = ⟨c * v.x, c * v.y, c * v.z⟩ := rfl

/-- Unfolding lemma for vector-scalar division. -/
theorem Vec3.div_def (v : Vec3) (c : ℚ) : v / c = ⟨v.x / c, v.y / c, v.z / c⟩ := rfl

/-- Unfolding lemma for scalar-color multiplication. -/
theorem Color.smul_channels_def (c : ℚ) (col : Color) :
    c * col = ⟨c * col.r, c * col.g, c * col.b⟩ := rfl

/-- Unfolding lemma for channelwise color multiplication. -/
theorem Color.mul_def (a b : Color) : a * b = ⟨a.r * b.r, a.g * b.g, a.b * b.b⟩ := rfl

/-- Unfolding lemma for channelwise color addition. -/
theorem Color.add_channels_def (a b : Color) : a + b = ⟨a.r + b.r, a.g + b.g, a.b + b.b⟩ := rfl

/-- Evaluation principle for `Rat.sqrt` at a perfect square (where it agrees
with the exact square root that idealizes `f64::sqrt`). -/
theorem rat_sqrt_eval (a b : ℚ) (h : a = b * b) (hb : 0 ≤ b) : Rat.sqrt a = b := by
  rw [h, Rat.sqrt_eq, abs_of_nonneg hb]

/-- Evaluation lemma: `first_hit` on a cons whose head accepts. -/
theorem first_hit_cons_some {s : ℚ → ℚ} {ray : Ray} {sp : Sphere}
    {rest : List Sphere} {rec : HitRecord}
    (h : sp.hit s ray (1 / 1000) INFINITY HitRecord.new = some rec) :
    first_hit s ray (sp :: rest) = some (sp, rec) := by
  simp only [first_hit, h]

/-- Evaluation lemma: `first_hit` on a cons whose head rejects. -/
theorem first_hit_cons_none {s : ℚ → ℚ} {ray : Ray} {sp : Sphere}
    {rest : List Sphere}
    (h : sp.hit s ray (1 / 1000) INFINITY HitRecord.new = none) :
    first_hit s ray (sp :: rest) = first_hit s ray rest := by
  simp only [first_hit, h]

/-- Evaluation lemma: `first_hit` on the empty scene. -/
theorem first_hit_nil (s : ℚ → ℚ) (ray : Ray) : first_hit s ray [] = none := rfl

/-- Evaluation lemma: one recursion step of `calculate_color` when the scan
finds a hit. -/
theorem calculate_color_succ_hit {s : ℚ → ℚ} {rng : ℕ → Vec3} {ray : Ray}
    {shapes : List Sphere} {d : ℕ} {sp : Sphere} {rec : HitRecord}
    (h : first_hit s ray shapes = some (sp, rec)) :
    calculate_color s rng ray shapes (d + 1) =
      sp.material.absorption *
        calculate_color s rng (sp.material.scatter (rng (d + 1)) rec) shapes d := by
  simp only [calculate_color, h]

/-- Evaluation lemma: one recursion step of `calculate_color` when no object
hits. -/
theorem calculate_color_succ_miss {s : ℚ → ℚ} {rng : ℕ → Vec3} {ray : Ray}
    {shapes : List Sphere} {d : ℕ}
    (h : first_hit s ray shapes = none) :
    calculate_color s rng ray shapes (d + 1) = generate_background_color s ray := by
  simp only [calculate_color, h]

/-- Evaluation lemma: the `lib.rs` Lambertian scatter when the perturbed
direction is not near zero. -/
theorem material_scatter_eval {c : Color} {u : Vec3} {rec : HitRecord}
    (h : ¬(rec.normal + u).near_zero) :
    Material.scatter (.lambertian c) u rec = Ray.mk rec.point (rec.normal + u) := by
  unfold Material.scatter
  simp only [if_neg h]

/-- Equation lemma: `Sphere::hit` written as an explicit decision tree over the
discriminant and the two candidate roots. -/
theorem Sphere.hit_eq (s : ℚ → ℚ) (sph : Sphere) (ray : Ray) (t_min t_max : ℚ)
    (rec : HitRecord) :
    sph.hit s ray t_min t_max rec =
      if Sphere.hitDisc sph ray < 0 then none
      else if Sphere.hitRoot1 s sph ray < t_min ∨ t_max < Sphere.hitRoot1 s sph ray then
        if Sphere.hitRoot2 s sph ray < t_min ∨ t_max < Sphere.hitRoot2 s sph ray then none
        else some (Sphere.hitWrite sph ray rec (Sphere.hitRoot2 s sph ray))
      else some (Sphere.hitWrite sph ray rec (Sphere.hitRoot1 s sph ray)) :=
  rfl

/-- C7: for every sqrt interpretation, random oracle, ray and scene, the
integrator `calculate_color` at depth `0` returns black; the scene list is
universally quantified and never consulted (the definition returns before the
object scan). -/
theorem calculate_color_depth_zero_black (s : ℚ → ℚ) (rng : ℕ → Vec3)
    (ray : Ray) (shapes : List Sphere) :
    calculate_color s rng ray shapes 0 = Color.black :=
  rfl

/-- C10: `Color::from_frac` returns `Some` of the given channels exactly when
each of `r`, `g`, `b` lies in the closed interval `[0, 1]`, and `None` exactly
otherwise — negative arguments are rejected as well as arguments above `1`. -/
theorem from_frac_some_iff (r g b : ℚ) :
    (Color.from_frac r g b = some ⟨r, g, b⟩ ↔
      (0 ≤ r ∧ r ≤ 1) ∧ (0 ≤ g ∧ g ≤ 1) ∧ (0 ≤ b ∧ b ≤ 1)) ∧
    (Color.from_frac r g b = none ↔
      ¬((0 ≤ r ∧ r ≤ 1) ∧ (0 ≤ g ∧ g ≤ 1) ∧ (0 ≤ b ∧ b ≤ 1))) := by
  unfold Color.from_frac
  split_ifs with h
  · constructor
    · simp only [false_iff, reduceCtorEq]
      intro hc
      rcases h with h | h | h | h | h | h <;> linarith [hc.1.1, hc.1.2, hc.2.1.1,
        hc.2.1.2, hc.2.2.1, hc.2.2.2]
    · simp only [true_iff]
      intro hc
      rcases h with h | h | h | h | h | h <;> linarith [hc.1.1, hc.1.2, hc.2.1.1,
        hc.2.1.2, hc.2.2.1, hc.2.2.2]
  · push_neg at h
    constructor
    · simp only [Option.some.injEq, true_iff]
      exact ⟨⟨h.2.1, h.1⟩, ⟨h.2.2.2.1, h.2.2.1⟩, h.2.2.2.2.2, h.2.2.2.2.1⟩
    · simp only [false_iff, not_not, reduceCtorEq]
      exact ⟨⟨h.2.1, h.1⟩, ⟨h.2.2.2.1, h.2.2.1⟩, h.2.2.2.2.2, h.2.2.2.2.1⟩

/-- C9: `ThreadPool::new` succeeds exactly for a positive worker count, and at
count `0` it returns the `PoolCreationError` value to the caller (an ordinary
`Err` value, not a crash). -/
theorem thread_pool_new_ok_iff (size : ℕ) :
    ((ThreadPool.new size).isOk = true ↔ 1 ≤ size) ∧
    (size = 0 → ThreadPool.new size = Except.error ⟨⟩) := by
  unfold ThreadPool.new
  constructor
  · split_ifs with h
    · simp only [Except.isOk, Except.toBool, true_iff]
      omega
    · simp only [Except.isOk, Except.toBool, Bool.false_eq_true, false_iff]
      omega
  · intro h
    subst h
    rfl

/-- C9 witness: at worker count `3` the hypothesis-free direction gives a pool,
and the `size = 0` branch is exercised by applying the theorem at `0`. -/
theorem thread_pool_new_ok_iff_witness :
    (0 : ℕ) = 0 ∧ ThreadPool.new 0 = Except.error ⟨⟩ :=
  ⟨rfl, (thread_pool_new_ok_iff 0).2 rfl⟩

/-- C8: `Color::combine_samples` maps each summed channel `v` to
`256 * clamp(sqrt(v * (1/samples)), 0, 0.999)`; in particular with
`samples = 1` the channel becomes `256 * clamp(sqrt(v), 0, 0.999)` (the scale
factor is `1/1 = 1`).  `s` stands for `f64::sqrt`. -/
theorem combine_samples_formula (s : ℚ → ℚ) :
    (∀ r g b : ℚ, Color.combine_samples s ⟨r, g, b⟩ 1 =
      ⟨256 * clamp (s r) 0 (999 / 1000),
       256 * clamp (s g) 0 (999 / 1000),
       256 * clamp (s b) 0 (999 / 1000)⟩) ∧
    (∀ (c : Color) (samples : ℕ), Color.combine_samples s c samples =
      ⟨256 * clamp (s (c.r * (1 / (samples : ℚ)))) 0 (999 / 1000),
       256 * clamp (s (c.g * (1 / (samples : ℚ)))) 0 (999 / 1000),
       256 * clamp (s (c.b * (1 / (samples : ℚ)))) 0 (999 / 1000)⟩) := by
  constructor
  · intro r g b
    unfold Color.combine_samples
    norm_num
  · intro c samples
    rfl

/-- C4 counterexample: `Metal::fuzzy` with fuzz argument `-2` stores fuzz `-2`,
which lies outside `[0, 1]` — negative fuzz values are not clamped. -/
theorem metal_fuzzy_negative_stored :
    (Metal.fuzzy Color.white (-2)).fuzz = -2 ∧
    ¬(0 ≤ (Metal.fuzzy Color.white (-2)).fuzz) := by
  constructor
  · rfl
  · norm_num [Metal.fuzzy]

/-- C4 amended: `Metal::fuzzy` stores `min fuzz 1` — fuzz values above `1` are
clamped down to `1` and every stored fuzz is at most `1`, but values below `0`
(and any value `≤ 1`) are stored unchanged, so the stored fuzz is not confined
to `[0, 1]`. -/
theorem metal_fuzzy_stores_min_one (albedo : Color) (fuzz : ℚ) :
    (Metal.fuzzy albedo fuzz).fuzz = min fuzz 1 ∧
    (Metal.fuzzy albedo fuzz).fuzz ≤ 1 ∧
    (Metal.fuzzy albedo fuzz).albedo = albedo := by
  unfold Metal.fuzzy
  split_ifs with h
  · exact ⟨(min_eq_left h.le).symm, h.le, rfl⟩
  · push_neg at h
    exact ⟨(min_eq_right h).symm, le_refl 1, rfl⟩

/-- C5: `Lambertian::scatter` (module iteration, `src/material.rs`) always
returns `Some` outgoing ray, and `Metal::scatter` returns `None` exactly when
the perturbed reflected direction `reflect(unit(ray_in.direction), normal) +
fuzz * u` has dot product `≤ 0` with the stored normal. -/
theorem scatter_absorption_contract :
    (∀ (l : Lambertian) (u : Vec3) (rec : HitRecord) (ray_in : Ray),
      (l.scatter u rec ray_in).isSome = true) ∧
    (∀ (m : Metal) (s : ℚ → ℚ) (u : Vec3) (rec : HitRecord) (ray_in : Ray),
      m.scatter s u rec ray_in = none ↔
        Vec3.dot (reflect (ray_in.unit_vector s) rec.normal + m.fuzz * u)
          rec.normal ≤ 0) := by
  constructor
  · intro l u rec ray_in
    unfold Lambertian.scatter
    rfl
  · intro m s u rec ray_in
    unfold Metal.scatter
    simp only []
    split_ifs with h
    · simp only [reduceCtorEq, false_iff, not_le]
      exact h
    · simp only [true_iff]
      exact not_lt.mp h

/-- Helper: the `as u32` cast agrees with the integer floor on nonnegative
values below `2^32`. -/
theorem f64_as_u32_eq_floor (q : ℚ) (h0 : 0 ≤ q) (hlt : q < 2 ^ 32) :
    f64_as_u32 q = (⌊q⌋).toNat := by
  unfold f64_as_u32
  split_ifs with h1 h2
  · have hq : q = 0 := le_antisymm h1 h0
    simp [hq]
  · linarith
  · rfl

/-- C3 counterexample: `Image::new(3, 2.0)` produces height `1` (the cast in
the source truncates `3/2 = 1.5`), but rounding `3/2` to the nearest integer
gives `2`, so the height is not `round(width / aspect_ratio)`. -/
theorem image_new_height_not_round :
    (Image.new 3 2).height = 1 ∧
    round ((3 : ℚ) / 2) = 2 ∧
    ((Image.new 3 2).height : ℤ) ≠ round ((3 : ℚ) / 2) := by
  refine ⟨?_, ?_, ?_⟩ <;> norm_num [Image.new, f64_as_u32, round_eq]

/-- C3 amended: for a positive aspect ratio (with the quotient inside the `u32`
range), the constructed image's height is the truncation
`⌊width / aspect_ratio⌋` of the quotient, not its rounding to the nearest
integer. -/
theorem image_new_height_truncates (width : ℕ) (aspect_ratio : ℚ)
    (ha : 0 < aspect_ratio) (hlt : (width : ℚ) / aspect_ratio < 2 ^ 32) :
    (Image.new width aspect_ratio).height = (⌊(width : ℚ) / aspect_ratio⌋).toNat := by
  unfold Image.new
  exact f64_as_u32_eq_floor _ (div_nonneg (Nat.cast_nonneg width) ha.le) hlt

/-- C3 witness: the amended statement applied at width `3`, aspect ratio `2`,
where the truncated height is `1`. -/
theorem image_new_height_truncates_witness :
    (0 : ℚ) < 2 ∧ (3 : ℚ) / 2 < 2 ^ 32 ∧
    (Image.new 3 2).height = (⌊(3 : ℚ) / 2⌋).toNat :=
  ⟨by norm_num, by norm_num,
    image_new_height_truncates 3 2 (by norm_num) (by norm_num)⟩

/-- C6 counterexample: with `t_min = 1`, `t_max = 10`, a unit sphere at
`(0,0,-2)` and the ray from the origin along `(0,0,-1)`, the smaller root is
exactly `t_min = 1` — not strictly inside `(1, 10)` — yet `Sphere::hit`
accepts it (the source rejects a root only when `root < t_min || t_max <
root`, a closed-interval test). -/
theorem sphere_hit_accepts_boundary_root :
    Sphere.hit Rat.sqrt ⟨⟨0, 0, -2⟩, 1, .lambertian ⟨1, 1, 1⟩⟩
        ⟨⟨0, 0, 0⟩, ⟨0, 0, -1⟩⟩ 1 10 HitRecord.new
      = some ⟨⟨0, 0, -1⟩, ⟨0, 0, 1⟩, 1, true⟩ ∧
    ¬((1 : ℚ) < 1 ∧ (1 : ℚ) < 10) := by
  have hd : Sphere.hitDisc ⟨⟨0, 0, -2⟩, 1, .lambertian ⟨1, 1, 1⟩⟩
      ⟨⟨0, 0, 0⟩, ⟨0, 0, -1⟩⟩ = 4 := by
    norm_num [Sphere.hitDisc, Sphere.hitA, Sphere.hitB, Sphere.hitC, Vec3.dot,
      Vec3.sub_def]
  have hr : Sphere.hitRoot1 Rat.sqrt ⟨⟨0, 0, -2⟩, 1, .lambertian ⟨1, 1, 1⟩⟩
      ⟨⟨0, 0, 0⟩, ⟨0, 0, -1⟩⟩ = 1 := by
    unfold Sphere.hitRoot1
    rw [hd, rat_sqrt_eval 4 2 (by norm_num) (by norm_num)]
    norm_num [Sphere.hitA, Sphere.hitB, Vec3.dot, Vec3.sub_def]
  constructor
  · rw [Sphere.hit_eq, hd, hr]
    norm_num [Sphere.hitWrite, Ray.at', HitRecord.new, Vec3.zero, Vec3.add_def,
      Vec3.smul_def, Vec3.sub_def, Vec3.div_def]
  · simp

/-- C6 amended: `Sphere::hit` first evaluates the smaller candidate root
`(-b - sqrt(disc)) / 2a`; when that root lies outside the closed interval
`[t_min, t_max]` it tries the larger root `(-b + sqrt(disc)) / 2a`; when that
also lies outside it returns false; and it accepts a root exactly when
`t_min ≤ root ≤ t_max` — boundary values included, so acceptance is on the
closed interval, not the open one. -/
theorem sphere_hit_root_selection (s : ℚ → ℚ) (sph : Sphere) (ray : Ray)
    (t_min t_max : ℚ) (rec : HitRecord) :
    (Sphere.hitDisc sph ray < 0 →
      sph.hit s ray t_min t_max rec = none) ∧
    (t_min ≤ Sphere.hitRoot1 s sph ray → Sphere.hitRoot1 s sph ray ≤ t_max →
      ¬(Sphere.hitDisc sph ray < 0) →
      sph.hit s ray t_min t_max rec =
        some (Sphere.hitWrite sph ray rec (Sphere.hitRoot1 s sph ray))) ∧
    ((Sphere.hitRoot1 s sph ray < t_min ∨ t_max < Sphere.hitRoot1 s sph ray) →
      t_min ≤ Sphere.hitRoot2 s sph ray → Sphere.hitRoot2 s sph ray ≤ t_max →
      ¬(Sphere.hitDisc sph ray < 0) →
      sph.hit s ray t_min t_max rec =
        some (Sphere.hitWrite sph ray rec (Sphere.hitRoot2 s sph ray))) ∧
    ((Sphere.hitRoot1 s sph ray < t_min ∨ t_max < Sphere.hitRoot1 s sph ray) →
      (Sphere.hitRoot2 s sph ray < t_min ∨ t_max < Sphere.hitRoot2 s sph ray) →
      sph.hit s ray t_min t_max rec = none) := by
  rw [Sphere.hit_eq]
  refine ⟨fun h => if_pos h, fun h1 h2 hd => ?_, fun h1 h2 h3 hd => ?_,
    fun h1 h2 => ?_⟩
  · rw [if_neg hd, if_neg (not_or.mpr ⟨not_lt.mpr h1, not_lt.mpr h2⟩)]
  · rw [if_neg hd, if_pos h1, if_neg (not_or.mpr ⟨not_lt.mpr h2, not_lt.mpr h3⟩)]
  · by_cases hd : Sphere.hitDisc sph ray < 0
    · rw [if_pos hd]
    · rw [if_neg hd, if_pos h1, if_pos h2]

/-- C6 witness: the amended root-selection theorem applied at the boundary
instance (smaller root exactly `t_min = 1`), with each hypothesis discharged
by evaluation. -/
theorem sphere_hit_root_selection_witness :
    (1 : ℚ) ≤ Sphere.hitRoot1 Rat.sqrt ⟨⟨0, 0, -2⟩, 1, .lambertian ⟨1, 1, 1⟩⟩
        ⟨⟨0, 0, 0⟩, ⟨0, 0, -1⟩⟩ ∧
    Sphere.hitRoot1 Rat.sqrt ⟨⟨0, 0, -2⟩, 1, .lambertian ⟨1, 1, 1⟩⟩
        ⟨⟨0, 0, 0⟩, ⟨0, 0, -1⟩⟩ ≤ 10 ∧
    ¬(Sphere.hitDisc ⟨⟨0, 0, -2⟩, 1, .lambertian ⟨1, 1, 1⟩⟩
        ⟨⟨0, 0, 0⟩, ⟨0, 0, -1⟩⟩ < 0) ∧
    Sphere.hit Rat.sqrt ⟨⟨0, 0, -2⟩, 1, .lambertian ⟨1, 1, 1⟩⟩
        ⟨⟨0, 0, 0⟩, ⟨0, 0, -1⟩⟩ 1 10 HitRecord.new
      = some (Sphere.hitWrite ⟨⟨0, 0, -2⟩, 1, .lambertian ⟨1, 1, 1⟩⟩
          ⟨⟨0, 0, 0⟩, ⟨0, 0, -1⟩⟩ HitRecord.new
          (Sphere.hitRoot1 Rat.sqrt ⟨⟨0, 0, -2⟩, 1, .lambertian ⟨1, 1, 1⟩⟩
            ⟨⟨0, 0, 0⟩, ⟨0, 0, -1⟩⟩)) := by
  have hd : Sphere.hitDisc ⟨⟨0, 0, -2⟩, 1, .lambertian ⟨1, 1, 1⟩⟩
      ⟨⟨0, 0, 0⟩, ⟨0, 0, -1⟩⟩ = 4 := by
    norm_num [Sphere.hitDisc, Sphere.hitA, Sphere.hitB, Sphere.hitC, Vec3.dot,
      Vec3.sub_def]
  have hr : Sphere.hitRoot1 Rat.sqrt ⟨⟨0, 0, -2⟩, 1, .lambertian ⟨1, 1, 1⟩⟩
      ⟨⟨0, 0, 0⟩, ⟨0, 0, -1⟩⟩ = 1 := by
    unfold Sphere.hitRoot1
    rw [hd, rat_sqrt_eval 4 2 (by norm_num) (by norm_num)]
    norm_num [Sphere.hitA, Sphere.hitB, Vec3.dot, Vec3.sub_def]
  refine ⟨by rw [hr], by rw [hr]; norm_num, by rw [hd]; norm_num, ?_⟩
  exact (sphere_hit_root_selection Rat.sqrt _ _ 1 10 HitRecord.new).2.1
    (by rw [hr]) (by rw [hr]; norm_num) (by rw [hd]; norm_num)

/-- C2: for a ray originating at the center of a unit sphere (so inside it),
`Sphere::hit` accepts the far intersection at `t = 1` and stores the outward
normal `(point - center) / radius = (0,0,1)`; that normal has unit length but
its dot product with the ray direction is `1 > 0` — the stored normal points
with the incoming ray, not against it.  (`Sphere::hit` writes the outward
normal unconditionally; `HitRecord::set_face_normal`, which the source
documents as flipping the normal against the ray, is never called.) -/
theorem sphere_hit_inside_normal_points_with_ray :
    Sphere.hit Rat.sqrt ⟨⟨0, 0, 0⟩, 1, .lambertian ⟨1, 1, 1⟩⟩
        ⟨⟨0, 0, 0⟩, ⟨0, 0, 1⟩⟩ (1 / 1000) INFINITY HitRecord.new
      = some ⟨⟨0, 0, 1⟩, ⟨0, 0, 1⟩, 1, true⟩ ∧
    Vec3.length_squared ⟨0, 0, 1⟩ = 1 ∧
    0 < Vec3.dot ⟨0, 0, 1⟩ ⟨0, 0, 1⟩ := by
  have hd : Sphere.hitDisc ⟨⟨0, 0, 0⟩, 1, .lambertian ⟨1, 1, 1⟩⟩
      ⟨⟨0, 0, 0⟩, ⟨0, 0, 1⟩⟩ = 4 := by
    norm_num [Sphere.hitDisc, Sphere.hitA, Sphere.hitB, Sphere.hitC, Vec3.dot,
      Vec3.sub_def]
  have h1 : Sphere.hitRoot1 Rat.sqrt ⟨⟨0, 0, 0⟩, 1, .lambertian ⟨1, 1, 1⟩⟩
      ⟨⟨0, 0, 0⟩, ⟨0, 0, 1⟩⟩ = -1 := by
    unfold Sphere.hitRoot1
    rw [hd, rat_sqrt_eval 4 2 (by norm_num) (by norm_num)]
    norm_num [Sphere.hitA, Sphere.hitB, Vec3.dot, Vec3.sub_def]
  have h2 : Sphere.hitRoot2 Rat.sqrt ⟨⟨0, 0, 0⟩, 1, .lambertian ⟨1, 1, 1⟩⟩
      ⟨⟨0, 0, 0⟩, ⟨0, 0, 1⟩⟩ = 1 := by
    unfold Sphere.hitRoot2
    rw [hd, rat_sqrt_eval 4 2 (by norm_num) (by norm_num)]
    norm_num [Sphere.hitA, Sphere.hitB, Vec3.dot, Vec3.sub_def]
  refine ⟨?_, by norm_num [Vec3.length_squared], by norm_num [Vec3.dot]⟩
  rw [Sphere.hit_eq, hd, h1, h2]
  norm_num [INFINITY, Sphere.hitWrite, Ray.at', HitRecord.new, Vec3.zero,
    Vec3.add_def, Vec3.smul_def, Vec3.sub_def, Vec3.div_def]

/-- C1: the integrator's scene scan returns the first object in list order
whose hit test succeeds (with `t_max` fixed at `INFINITY`, never narrowed), so
permuting the scene list changes the returned color.  Concretely: the ray from
the origin along `(0,0,-1)` passes through a sphere at `z = -1` (`t = 3/4`)
and a sphere at `z = -3` (`t = 11/4`); with the same random draw at the first
bounce, listing the near sphere first colors the pixel with the near sphere's
albedo, listing the far sphere first colors it with the far sphere's albedo. -/
theorem calculate_color_depends_on_scene_order :
    calculate_color Rat.sqrt (fun _ => ⟨24/25, 0, -7/25⟩) ⟨⟨0, 0, 0⟩, ⟨0, 0, -1⟩⟩
        [⟨⟨0, 0, -1⟩, 1/4, .lambertian ⟨7/10, 7/10, 3/10⟩⟩,
         ⟨⟨0, 0, -3⟩, 1/4, .lambertian ⟨9/10, 6/10, 1/10⟩⟩] MAX_DEPTH
      = ⟨21/40, 119/200, 3/10⟩ ∧
    calculate_color Rat.sqrt (fun _ => ⟨24/25, 0, -7/25⟩) ⟨⟨0, 0, 0⟩, ⟨0, 0, -1⟩⟩
        [⟨⟨0, 0, -3⟩, 1/4, .lambertian ⟨9/10, 6/10, 1/10⟩⟩,
         ⟨⟨0, 0, -1⟩, 1/4, .lambertian ⟨7/10, 7/10, 3/10⟩⟩] MAX_DEPTH
      = ⟨27/40, 51/100, 1/10⟩ ∧
    (⟨21/40, 119/200, 3/10⟩ : Color) ≠ ⟨27/40, 51/100, 1/10⟩ := by
  -- Accepted primary hits of the near sphere (t = 3/4) and far sphere (t = 11/4).
  have hA : Sphere.hit Rat.sqrt ⟨⟨0, 0, -1⟩, 1/4, .lambertian ⟨7/10, 7/10, 3/10⟩⟩
      ⟨⟨0, 0, 0⟩, ⟨0, 0, -1⟩⟩ (1 / 1000) INFINITY HitRecord.new
        = some ⟨⟨0, 0, -3/4⟩, ⟨0, 0, 1⟩, 3/4, true⟩ := by
    have hd : Sphere.hitDisc ⟨⟨0, 0, -1⟩, 1/4, .lambertian ⟨7/10, 7/10, 3/10⟩⟩
        ⟨⟨0, 0, 0⟩, ⟨0, 0, -1⟩⟩ = 1/4 := by
      norm_num [Sphere.hitDisc, Sphere.hitA, Sphere.hitB, Sphere.hitC, Vec3.dot,
        Vec3.sub_def]
    have h1 : Sphere.hitRoot1 Rat.sqrt
        ⟨⟨0, 0, -1⟩, 1/4, .lambertian ⟨7/10, 7/10, 3/10⟩⟩
        ⟨⟨0, 0, 0⟩, ⟨0, 0, -1⟩⟩ = 3/4 := by
      unfold Sphere.hitRoot1
      rw [hd, rat_sqrt_eval (1/4) (1/2) (by norm_num) (by norm_num)]
      norm_num [Sphere.hitA, Sphere.hitB, Vec3.dot, Vec3.sub_def]
    rw [Sphere.hit_eq, hd, h1]
    norm_num [INFINITY, Sphere.hitWrite, Ray.at', HitRecord.new, Vec3.zero,
      Vec3.add_def, Vec3.smul_def, Vec3.sub_def, Vec3.div_def]
  have hB : Sphere.hit Rat.sqrt ⟨⟨0, 0, -3⟩, 1/4, .lambertian ⟨9/10, 6/10, 1/10⟩⟩
      ⟨⟨0, 0, 0⟩, ⟨0, 0, -1⟩⟩ (1 / 1000) INFINITY HitRecord.new
        = some ⟨⟨0, 0, -11/4⟩, ⟨0, 0, 1⟩, 11/4, true⟩ := by
    have hd : Sphere.hitDisc ⟨⟨0, 0, -3⟩, 1/4, .lambertian ⟨9/10, 6/10, 1/10⟩⟩
        ⟨⟨0, 0, 0⟩, ⟨0, 0, -1⟩⟩ = 1/4 := by
      norm_num [Sphere.hitDisc, Sphere.hitA, Sphere.hitB, Sphere.hitC, Vec3.dot,
        Vec3.sub_def]
    have h1 : Sphere.hitRoot1 Rat.sqrt
        ⟨⟨0, 0, -3⟩, 1/4, .lambertian ⟨9/10, 6/10, 1/10⟩⟩
        ⟨⟨0, 0, 0⟩, ⟨0, 0, -1⟩⟩ = 11/4 := by
      unfold Sphere.hitRoot1
      rw [hd, rat_sqrt_eval (1/4) (1/2) (by norm_num) (by norm_num)]
      norm_num [Sphere.hitA, Sphere.hitB, Vec3.dot, Vec3.sub_def]
    rw [Sphere.hit_eq, hd, h1]
    norm_num [INFINITY, Sphere.hitWrite, Ray.at', HitRecord.new, Vec3.zero,
      Vec3.add_def, Vec3.smul_def, Vec3.sub_def, Vec3.div_def]
  -- The Lambertian bounce from either hit point has direction (24/25, 0, 18/25).
  have hscA : (⟨⟨0, 0, -1⟩, 1/4, .lambertian ⟨7/10, 7/10, 3/10⟩⟩ : Sphere).material.scatter
      ⟨24/25, 0, -7/25⟩ ⟨⟨0, 0, -3/4⟩, ⟨0, 0, 1⟩, 3/4, true⟩
        = Ray.mk ⟨0, 0, -3/4⟩ ⟨24/25, 0, 18/25⟩ := by
    show Material.scatter (.lambertian ⟨7/10, 7/10, 3/10⟩) ⟨24/25, 0, -7/25⟩
      ⟨⟨0, 0, -3/4⟩, ⟨0, 0, 1⟩, 3/4, true⟩ = _
    rw [material_scatter_eval (by
      simp only [Vec3.add_def]
      norm_num [Vec3.near_zero, abs_of_nonneg])]
    norm_num [Vec3.add_def]
  have hscB : (⟨⟨0, 0, -3⟩, 1/4, .lambertian ⟨9/10, 6/10, 1/10⟩⟩ : Sphere).material.scatter
      ⟨24/25, 0, -7/25⟩ ⟨⟨0, 0, -11/4⟩, ⟨0, 0, 1⟩, 11/4, true⟩
        = Ray.mk ⟨0, 0, -11/4⟩ ⟨24/25, 0, 18/25⟩ := by
    show Material.scatter (.lambertian ⟨9/10, 6/10, 1/10⟩) ⟨24/25, 0, -7/25⟩
      ⟨⟨0, 0, -11/4⟩, ⟨0, 0, 1⟩, 11/4, true⟩ = _
    rw [material_scatter_eval (by
      simp only [Vec3.add_def]
      norm_num [Vec3.near_zero, abs_of_nonneg])]
    norm_num [Vec3.add_def]
  -- Both bounced rays miss both spheres.
  have hm1 : Sphere.hit Rat.sqrt ⟨⟨0, 0, -1⟩, 1/4, .lambertian ⟨7/10, 7/10, 3/10⟩⟩
      (Ray.mk ⟨0, 0, -3/4⟩ ⟨24/25, 0, 18/25⟩) (1 / 1000) INFINITY HitRecord.new
        = none := by
    have hd : Sphere.hitDisc ⟨⟨0, 0, -1⟩, 1/4, .lambertian ⟨7/10, 7/10, 3/10⟩⟩
        (Ray.mk ⟨0, 0, -3/4⟩ ⟨24/25, 0, 18/25⟩) = 81/625 := by
      norm_num [Sphere.hitDisc, Sphere.hitA, Sphere.hitB, Sphere.hitC, Vec3.dot,
        Vec3.sub_def]
    have h1 : Sphere.hitRoot1 Rat.sqrt
        ⟨⟨0, 0, -1⟩, 1/4, .lambertian ⟨7/10, 7/10, 3/10⟩⟩
        (Ray.mk ⟨0, 0, -3/4⟩ ⟨24/25, 0, 18/25⟩) = -(1/4) := by
      unfold Sphere.hitRoot1
      rw [hd, rat_sqrt_eval (81/625) (9/25) (by norm_num) (by norm_num)]
      norm_num [Sphere.hitA, Sphere.hitB, Vec3.dot, Vec3.sub_def]
    have h2 : Sphere.hitRoot2 Rat.sqrt
        ⟨⟨0, 0, -1⟩, 1/4, .lambertian ⟨7/10, 7/10, 3/10⟩⟩
        (Ray.mk ⟨0, 0, -3/4⟩ ⟨24/25, 0, 18/25⟩) = 0 := by
      unfold Sphere.hitRoot2
      rw [hd, rat_sqrt_eval (81/625) (9/25) (by norm_num) (by norm_num)]
      norm_num [Sphere.hitA, Sphere.hitB, Vec3.dot, Vec3.sub_def]
    rw [Sphere.hit_eq, hd, h1, h2]
    norm_num
  have hm2 : Sphere.hit Rat.sqrt ⟨⟨0, 0, -3⟩, 1/4, .lambertian ⟨9/10, 6/10, 1/10⟩⟩
      (Ray.mk ⟨0, 0, -3/4⟩ ⟨24/25, 0, 18/25⟩) (1 / 1000) INFINITY HitRecord.new
        = none := by
    have hd : Sphere.hitDisc ⟨⟨0, 0, -3⟩, 1/4, .lambertian ⟨9/10, 6/10, 1/10⟩⟩
        (Ray.mk ⟨0, 0, -3/4⟩ ⟨24/25, 0, 18/25⟩) = -(11439/625) := by
      norm_num [Sphere.hitDisc, Sphere.hitA, Sphere.hitB, Sphere.hitC, Vec3.dot,
        Vec3.sub_def]
    rw [Sphere.hit_eq, hd]
    norm_num
  have hm3 : Sphere.hit Rat.sqrt ⟨⟨0, 0, -3⟩, 1/4, .lambertian ⟨9/10, 6/10, 1/10⟩⟩
      (Ray.mk ⟨0, 0, -11/4⟩ ⟨24/25, 0, 18/25⟩) (1 / 1000) INFINITY HitRecord.new
        = none := by
    have hd : Sphere.hitDisc ⟨⟨0, 0, -3⟩, 1/4, .lambertian ⟨9/10, 6/10, 1/10⟩⟩
        (Ray.mk ⟨0, 0, -11/4⟩ ⟨24/25, 0, 18/25⟩) = 81/625 := by
      norm_num [Sphere.hitDisc, Sphere.hitA, Sphere.hitB, Sphere.hitC, Vec3.dot,
        Vec3.sub_def]
    have h1 : Sphere.hitRoot1 Rat.sqrt
        ⟨⟨0, 0, -3⟩, 1/4, .lambertian ⟨9/10, 6/10, 1/10⟩⟩
        (Ray.mk ⟨0, 0, -11/4⟩ ⟨24/25, 0, 18/25⟩) = -(1/4) := by
      unfold Sphere.hitRoot1
      rw [hd, rat_sqrt_eval (81/625) (9/25) (by norm_num) (by norm_num)]
      norm_num [Sphere.hitA, Sphere.hitB, Vec3.dot, Vec3.sub_def]
    have h2 : Sphere.hitRoot2 Rat.sqrt
        ⟨⟨0, 0, -3⟩, 1/4, .lambertian ⟨9/10, 6/10, 1/10⟩⟩
        (Ray.mk ⟨0, 0, -11/4⟩ ⟨24/25, 0, 18/25⟩) = 0 := by
      unfold Sphere.hitRoot2
      rw [hd, rat_sqrt_eval (81/625) (9/25) (by norm_num) (by norm_num)]
      norm_num [Sphere.hitA, Sphere.hitB, Vec3.dot, Vec3.sub_def]
    rw [Sphere.hit_eq, hd, h1, h2]
    norm_num
  have hm4 : Sphere.hit Rat.sqrt ⟨⟨0, 0, -1⟩, 1/4, .lambertian ⟨7/10, 7/10, 3/10⟩⟩
      (Ray.mk ⟨0, 0, -11/4⟩ ⟨24/25, 0, 18/25⟩) (1 / 1000) INFINITY HitRecord.new
        = none := by
    have hd : Sphere.hitDisc ⟨⟨0, 0, -1⟩, 1/4, .lambertian ⟨7/10, 7/10, 3/10⟩⟩
        (Ray.mk ⟨0, 0, -11/4⟩ ⟨24/25, 0, 18/25⟩) = -(6831/625) := by
      norm_num [Sphere.hitDisc, Sphere.hitA, Sphere.hitB, Sphere.hitC, Vec3.dot,
        Vec3.sub_def]
    rw [Sphere.hit_eq, hd]
    norm_num
  -- The missed bounce resolves to the background gradient at direction (4/5, 0, 3/5).
  have hbg : ∀ o : Vec3,
      generate_background_color Rat.sqrt (Ray.mk o ⟨24/25, 0, 18/25⟩)
        = ⟨3/4, 17/20, 1⟩ := by
    intro o
    unfold generate_background_color Ray.unit_vector Vec3.length
    rw [show (Ray.mk o (⟨24/25, 0, 18/25⟩ : Vec3)).direction
          = (⟨24/25, 0, 18/25⟩ : Vec3) from rfl,
      show Vec3.length_squared ⟨24/25, 0, 18/25⟩ = 36/25 by
        norm_num [Vec3.length_squared],
      rat_sqrt_eval (36/25) (6/5) (by norm_num) (by norm_num)]
    norm_num [Vec3.div_def, Color.smul_channels_def, Color.add_channels_def, Color.white, Color.blue]
  -- One bounce then background, for each ordering.
  have innerA : calculate_color Rat.sqrt (fun _ => ⟨24/25, 0, -7/25⟩)
      (Ray.mk ⟨0, 0, -3/4⟩ ⟨24/25, 0, 18/25⟩)
      [⟨⟨0, 0, -1⟩, 1/4, .lambertian ⟨7/10, 7/10, 3/10⟩⟩,
       ⟨⟨0, 0, -3⟩, 1/4, .lambertian ⟨9/10, 6/10, 1/10⟩⟩] 9 = ⟨3/4, 17/20, 1⟩ := by
    rw [show (9 : ℕ) = 8 + 1 from rfl,
      calculate_color_succ_miss
        (by rw [first_hit_cons_none hm1, first_hit_cons_none hm2, first_hit_nil])]
    exact hbg _
  have innerB : calculate_color Rat.sqrt (fun _ => ⟨24/25, 0, -7/25⟩)
      (Ray.mk ⟨0, 0, -11/4⟩ ⟨24/25, 0, 18/25⟩)
      [⟨⟨0, 0, -3⟩, 1/4, .lambertian ⟨9/10, 6/10, 1/10⟩⟩,
       ⟨⟨0, 0, -1⟩, 1/4, .lambertian ⟨7/10, 7/10, 3/10⟩⟩] 9 = ⟨3/4, 17/20, 1⟩ := by
    rw [show (9 : ℕ) = 8 + 1 from rfl,
      calculate_color_succ_miss
        (by rw [first_hit_cons_none hm3, first_hit_cons_none hm4, first_hit_nil])]
    exact hbg _
  refine ⟨?_, ?_, by simp only [ne_eq, Color.mk.injEq]; norm_num⟩
  · rw [show MAX_DEPTH = 9 + 1 from rfl,
      calculate_color_succ_hit (first_hit_cons_some hA), hscA, innerA]
    norm_num [Material.absorption, Color.mul_def]
  · rw [show MAX_DEPTH = 9 + 1 from rfl,
      calculate_color_succ_hit (first_hit_cons_some hB), hscB, innerB]
    norm_num [Material.absorption, Color.mul_def]

end RayTracer
